import Mathlib

set_option maxHeartbeats 1000000

/-!
Shallow embedding of the additive-manufacturing (lamp-shade slicer) core of the
repository: scanline/even-odd polygon fill, polygon closure, parametric radius
profiles, printability validation, extrusion arithmetic, spiral toolpath
generation, and the layer-generation loop.  Geometry over exact rationals or
reals; the layer loop is additionally modelled under binary64 rounding because
the source accumulates the layer height by repeated floating-point addition.
-/

-- ============================================================================
-- Scanline / even-odd engine (src/assignment3/part2_scanline.py)
-- ============================================================================

/-- Closes a polygon by appending the first vertex when the last vertex does not
already repeat it.  Used so that consecutive vertex pairs enumerate every edge
of the closed polygon. -/
def closePoly (poly : List (ℚ × ℚ)) : List (ℚ × ℚ) :=
  match poly with
  | [] => []
  | a :: rest => if (a :: rest).getLast? = some a then a :: rest else (a :: rest) ++ [a]

/-- Modelled from the spec: the body of `scanline_x_intersections` in
`src/assignment3/part2_scanline.py` raises `NotImplementedError`; this follows
the spec §4.3.  For every edge `(p0, p1)` of the closed polygon, the horizontal
line at height `y` crosses it iff `min(p0.y, p1.y) <= y < max(p0.y, p1.y)`
(half-open test); edges with `|p0.y - p1.y| < eps` (horizontal) contribute no
intersection; a crossing edge contributes
`x = p0.x + (y - p0.y)/(p1.y - p0.y) * (p1.x - p0.x)`; results are sorted
ascending.  `crossings` walks the edge list collecting the crossing
x-coordinates. -/
def crossings (y eps : ℚ) : List ((ℚ × ℚ) × (ℚ × ℚ)) → List ℚ
  | [] => []
  | e :: rest =>
    if |e.1.2 - e.2.2| < eps then crossings y eps rest
    else if min e.1.2 e.2.2 ≤ y ∧ y < max e.1.2 e.2.2 then
      (e.1.1 + (y - e.1.2) / (e.2.2 - e.1.2) * (e.2.1 - e.1.1)) :: crossings y eps rest
    else crossings y eps rest

/-- Sorted crossing x-coordinates of the horizontal line at height `y` with the
closed polygon (see `crossings` for the per-edge test). -/
def scanline_x_intersections (poly : List (ℚ × ℚ)) (y : ℚ) (eps : ℚ) : List ℚ :=
  let q := closePoly poly
  List.insertionSort (· ≤ ·) (crossings y eps (q.zip q.tail))

/-- Modelled from the spec: the body of `even_odd_segments` in
`src/assignment3/part2_scanline.py` raises `NotImplementedError`; this follows
the spec §4.3.  Sorted x-values are paired up `(xs[0], xs[1]), (xs[2], xs[3]),
...`; each pair becomes a horizontal segment at height `y` when its length is
at least `min_seg_len`, else it is discarded; an unmatched trailing value is
dropped. -/
def even_odd_segments (xs : List ℚ) (y min_seg_len : ℚ) : List ((ℚ × ℚ) × (ℚ × ℚ)) :=
  match xs with
  | x1 :: x2 :: rest =>
    (if min_seg_len ≤ x2 - x1 then [((x1, y), (x2, y))] else []) ++
      even_odd_segments rest y min_seg_len
  | _ => []

-- ============================================================================
-- Polygon closure helper (src/lec7/utility/helpers_geom.py, ensure_closed)
-- ============================================================================

/-- Squared Euclidean distance between two points. -/
def sqDist (p q : ℚ × ℚ) : ℚ := (p.1 - q.1) ^ 2 + (p.2 - q.2) ^ 2

/-- Test `norm(p - q) <= eps` expressed without square roots: equivalent to
`0 ≤ eps ∧ sqDist p q ≤ eps^2`. -/
def withinEps (p q : ℚ × ℚ) (eps : ℚ) : Prop := 0 ≤ eps ∧ sqDist p q ≤ eps ^ 2

instance withinEps.dec (p q : ℚ × ℚ) (eps : ℚ) : Decidable (withinEps p q eps) :=
  inferInstanceAs (Decidable (_ ∧ _))

/-- Embedding of `ensure_closed`: inputs are typed `(N, 2)` point lists, so the
shape check of the source is carried by the type; a list of fewer than 3
vertices is rejected with `ValueError("Need >= 3 vertices")`; if the first and
last vertex are within `eps` (Euclidean norm) the list is returned unchanged,
otherwise the first vertex is appended. -/
def ensure_closed (p : List (ℚ × ℚ)) (eps : ℚ) : Except String (List (ℚ × ℚ)) :=
  match p with
  | [] => .error "Need >= 3 vertices"
  | a :: rest =>
    if (a :: rest).length < 3 then .error "Need >= 3 vertices"
    else if withinEps a ((a :: rest).getLast (List.cons_ne_nil a rest)) eps then
      .ok (a :: rest)
    else .ok ((a :: rest) ++ [a])

/-- Polygon closure predicate used to state properties of `ensure_closed`: the
first and last vertex are within `eps` of each other. -/
def closedWithin (p : List (ℚ × ℚ)) (eps : ℚ) : Prop :=
  ∀ a ∈ p.head?, ∀ b ∈ p.getLast?, withinEps a b eps

-- ============================================================================
-- Spiral toolpath (src/assignment3/part3_gcode.py)
-- ============================================================================

/-- Removes the duplicate closing point of a perimeter: when the first point
equals the last point, the last is dropped. -/
def stripClosing (p : List (ℚ × ℚ)) : List (ℚ × ℚ) :=
  match p with
  | [] => []
  | a :: rest => if (a :: rest).getLast? = some a then (a :: rest).dropLast else a :: rest

/-- Emits the points of one layer of the spiral: point number `i` of the
perimeter is emitted at `z_base + i * z_inc`. -/
def emitLayer (zb zinc : ℚ) : ℕ → List (ℚ × ℚ) → List (ℚ × ℚ × ℚ)
  | _, [] => []
  | i, p :: rest => (p.1, p.2, zb + (i : ℚ) * zinc) :: emitLayer zb zinc (i + 1) rest

/-- Modelled from the spec: the body of `generate_spiral_lamp_shade_toolpath`
in `src/assignment3/part3_gcode.py` raises `NotImplementedError`; this follows
the spec §4.4 and the docstring algorithm.  With `z_inc = layer_height /
num_points`, each layer (a pair of its height `z` and its perimeter) has its
duplicate closing point removed and its points emitted at
`z + i * z_inc` for point index `i`. -/
def generate_spiral_lamp_shade_toolpath (layers : List (ℚ × List (ℚ × ℚ)))
    (layer_height : ℚ) (num_points : ℕ) : List (ℚ × ℚ × ℚ) :=
  layers.flatMap (fun l => emitLayer l.1 (layer_height / (num_points : ℚ)) 0 (stripClosing l.2))

-- ============================================================================
-- Binary64 model and the layer-generation loop
-- (src/assignment3/part1_geometry.py, generate_lamp_shade_layers)
-- ============================================================================

/-- Number of binary digits of `n`, with explicit recursion fuel (128 is ample
for every quantity a binary64 computation produces here). -/
def bits : ℕ → ℕ → ℕ
  | 0, _ => 0
  | fuel + 1, n => if n = 0 then 0 else bits fuel (n / 2) + 1

/-- Bit length of a natural number below `2 ^ 128`. -/
def bitlen (n : ℕ) : ℕ := bits 128 n

/-- Round-to-nearest, ties-to-even of the quotient `N / d`. -/
def rndDiv (N d : ℕ) : ℕ :=
  let q := N / d
  let r := N % d
  if 2 * r < d then q
  else if d < 2 * r then q + 1
  else if q % 2 = 0 then q else q + 1

/-- Nonnegative binary64 value `m * 2 ^ e`.  No normalization invariant is
imposed; the operations below always produce mantissas of at most 53 bits. -/
structure B64 where
  m : ℕ
  e : ℤ
deriving DecidableEq

/-- Rounds an exact value `M * 2 ^ e` to a 53-bit mantissa, ties to even. -/
def roundMantissa (M : ℕ) (e : ℤ) : B64 :=
  let b := bitlen M
  if b ≤ 53 then ⟨M, e⟩
  else ⟨rndDiv M (2 ^ (b - 53)), e + (b - 53 : ℕ)⟩

/-- Binary64 addition of nonnegative values: align exponents, add mantissas
exactly, round to 53 bits. -/
def fadd (x y : B64) : B64 :=
  if x.e ≤ y.e then roundMantissa (x.m + y.m * 2 ^ (y.e - x.e).toNat) x.e
  else roundMantissa (x.m * 2 ^ (x.e - y.e).toNat + y.m) y.e

/-- Comparison `x ≤ y` of nonnegative binary64 values, by aligning exponents. -/
def fle (x y : B64) : Bool :=
  if x.e ≤ y.e then decide (x.m ≤ y.m * 2 ^ (y.e - x.e).toNat)
  else decide (x.m * 2 ^ (x.e - y.e).toNat ≤ y.m)

/-- Nearest binary64 value to the positive rational `a / b` (round to nearest,
ties to even): scale into the 53-bit mantissa window and round once. -/
def f64ofPosRat (a b : ℕ) : B64 :=
  let s0 : ℤ := 52 + (bitlen b : ℤ) - (bitlen a : ℤ)
  let N := if 0 ≤ s0 then a * 2 ^ s0.toNat else a
  let D := if 0 ≤ s0 then b else b * 2 ^ (-s0).toNat
  if 2 ^ 53 * D ≤ N then ⟨rndDiv N (2 * D), 1 - s0⟩
  else if N < 2 ^ 52 * D then ⟨rndDiv (2 * N) D, -s0 - 1⟩
  else ⟨rndDiv N D, -s0⟩

/-- Embedding of the z-iteration of `generate_lamp_shade_layers` under binary64
arithmetic, exactly as the source runs it: `z = layer_height; while z <=
total_height: append layer at z; z += layer_height`.  The perimeter built for
each layer is irrelevant to the z-sequence and is abstracted away; the fuel
argument bounds the number of iterations and the results below hold for every
sufficient fuel. -/
def layerZsF (total_height layer_height : B64) : B64 → ℕ → List B64
  | _, 0 => []
  | z, n + 1 =>
    if fle z total_height then z :: layerZsF total_height layer_height (fadd z layer_height) n
    else []

-- ============================================================================
-- Radius profile (src/assignment3/part1_geometry.py, lamp_shade_radius_at_height)
-- ============================================================================

/-- Embedding of `lamp_shade_radius_at_height`: normalize `t = z /
total_height`, clamp to `[0, 1]`, then dispatch on the profile string; unknown
profiles take the same linear formula as the final `else` arm of the source.
`t**2.0` is `t ^ 2` and `t**0.5` is `Real.sqrt t` (the clamped `t` is
nonnegative). -/
noncomputable def lamp_shade_radius_at_height (z base_radius top_radius total_height : ℝ)
    (profile_type : String) : ℝ :=
  let t := max 0 (min 1 (z / total_height))
  if profile_type = "linear" then base_radius + t * (top_radius - base_radius)
  else if profile_type = "concave" then base_radius + t ^ 2 * (top_radius - base_radius)
  else if profile_type = "convex" then base_radius + Real.sqrt t * (top_radius - base_radius)
  else if profile_type = "sinusoidal" then
    base_radius + t * (top_radius - base_radius) +
      (0.05 * (base_radius + top_radius) / 2) * Real.sin (4 * Real.pi * t)
  else base_radius + t * (top_radius - base_radius)

-- ============================================================================
-- Printability validation (src/assignment3/part1_geometry.py, validate_printability)
-- ============================================================================

/-- Overhang angle in degrees between consecutive sampled radii: `atan(|dr| /
dz) * 180 / pi`. -/
noncomputable def overhangAngleDeg (dr dz : ℝ) : ℝ :=
  Real.arctan (|dr| / dz) * (180 / Real.pi)

section
open Classical

/-- Walks the sampled heights in order carrying the previous radius; the first
consecutive pair whose overhang angle exceeds the maximum fails with the
offending height and angle. -/
noncomputable def checkPairs (f : ℝ → ℝ) (layer_height max_angle : ℝ) :
    ℝ → List ℝ → Except (ℝ × ℝ) String
  | _, [] => .ok "Valid"
  | rprev, z :: rest =>
    let ang := overhangAngleDeg (f z - rprev) layer_height
    if max_angle < ang then .error (z, ang) else checkPairs f layer_height max_angle (f z) rest

/-- Sample heights `layer_height, 2 * layer_height, ...` up to `total_height`. -/
noncomputable def sampleZs (total_height layer_height : ℝ) : List ℝ :=
  List.map (fun k : ℕ => (k : ℝ) * layer_height)
    (List.range' 1 ⌊total_height / layer_height⌋₊)

/-- Modelled from the spec: the body of `validate_printability` in
`src/assignment3/part1_geometry.py` raises `NotImplementedError`; this follows
the spec §4.2.  Sample z at `layer_height, 2*layer_height, ...` up to
`total_height`; for each consecutive pair compute `angle = atan(|dr| / dz)` in
degrees with `dz = layer_height`; fail on the first pair whose angle exceeds
`max_angle`, returning the offending height and angle (the payload of the
failure message); otherwise succeed with `"Valid"`. -/
noncomputable def validate_printability (f : ℝ → ℝ) (total_height layer_height max_angle : ℝ) :
    Except (ℝ × ℝ) String :=
  match sampleZs total_height layer_height with
  | [] => .ok "Valid"
  | z :: rest => checkPairs f layer_height max_angle (f z) rest

-- ============================================================================
-- Extrusion arithmetic (src/assignment3/part3_gcode.py)
-- ============================================================================

/-- Modelled from the spec: the body of `extruded_area` in
`src/assignment3/part3_gcode.py` raises `NotImplementedError`; this follows the
spec §4.5 capsule model: `width*height + pi*(height/2)^2`. -/
noncomputable def extruded_area (width height : ℝ) : ℝ :=
  width * height + Real.pi * (height / 2) ^ 2

/-- Modelled from the spec: the body of `delta_E_for_move` in
`src/assignment3/part3_gcode.py` raises `NotImplementedError`; this follows the
spec §4.5: `dE = flow_mult * (extruded_area * length) / (pi *
(filament_d/2)^2)`. -/
noncomputable def delta_E_for_move (L width height filament_d flow_mult : ℝ) : ℝ :=
  flow_mult * (extruded_area width height * L) / (Real.pi * (filament_d / 2) ^ 2)

-- ============================================================================
-- Parameter validation (src/assignment3/config.py)
-- ============================================================================

/-- Prusa MK4S machine limits from `PrinterSpecs`. -/
def PrinterSpecs.BED_SIZE : ℝ × ℝ := (250, 210)

/-- Bed center from `PrinterSpecs`. -/
def PrinterSpecs.BED_CENTER : ℝ × ℝ := (105, 105)

/-- Maximum build height from `PrinterSpecs`. -/
def PrinterSpecs.MAX_Z : ℝ := 220

/-- Maximum printable overhang angle from `PrinterSpecs`. -/
def PrinterSpecs.MAX_OVERHANG_ANGLE : ℝ := 45

/-- The fields of `LampShadeParams` that `validate` reads. -/
structure LampShadeParams where
  base_radius : ℝ
  top_radius : ℝ
  total_height : ℝ
  layer_height : ℝ
  num_points : ℕ
  profile_type : String

/-- One constructor per `ValueError` of `LampShadeParams.validate`. -/
inductive ValidationError where
  | radiiNotPositive
  | heightNotPositive
  | layerHeightOutOfRange
  | tooFewPoints
  | beyondBed
  | exceedsMaxZ
  | minRadiusTooSmall
  | printability (z angle : ℝ)

/-- Embedding of `LampShadeParams.validate`: each failing check raises the
corresponding `ValueError`, in source order; the final check delegates to
`validate_printability` on the profile function of the parameters. -/
noncomputable def LampShadeParams.validate (p : LampShadeParams) : Except ValidationError Unit :=
  if p.base_radius ≤ 0 ∨ p.top_radius ≤ 0 then .error .radiiNotPositive
  else if p.total_height ≤ 0 then .error .heightNotPositive
  else if p.layer_height ≤ 0 ∨ 0.3 < p.layer_height then .error .layerHeightOutOfRange
  else if p.num_points < 12 then .error .tooFewPoints
  else if PrinterSpecs.BED_CENTER.1 - max p.base_radius p.top_radius < 0 ∨
      PrinterSpecs.BED_SIZE.1 < PrinterSpecs.BED_CENTER.1 + max p.base_radius p.top_radius ∨
      PrinterSpecs.BED_CENTER.2 - max p.base_radius p.top_radius < 0 ∨
      PrinterSpecs.BED_SIZE.2 < PrinterSpecs.BED_CENTER.2 + max p.base_radius p.top_radius then
    .error .beyondBed
  else if PrinterSpecs.MAX_Z < p.total_height then .error .exceedsMaxZ
  else if min p.base_radius p.top_radius < 10 then .error .minRadiusTooSmall
  else
    match validate_printability
        (fun z => lamp_shade_radius_at_height z p.base_radius p.top_radius p.total_height
          p.profile_type)
        p.total_height p.layer_height PrinterSpecs.MAX_OVERHANG_ANGLE with
    | .error za => .error (.printability za.1 za.2)
    | .ok _ => .ok ()

end

-- ============================================================================
-- Theorems
-- ============================================================================

-- C7: even-odd pairing of sorted intersections.

/-- C7: `even_odd_segments` pairs consecutive sorted x-values `(xs[0], xs[1]),
(xs[2], xs[3]), ...` into horizontal segments at height `y`, keeping a pair
exactly when its length is at least `min_seg_len`; on `[70, 90, 110, 130]` at
`y = 100` it returns exactly the segments `(70,100)-(90,100)` and
`(110,100)-(130,100)`. -/
theorem even_odd_segments_spec :
    (∀ (x1 x2 : ℚ) (rest : List ℚ) (y m : ℚ),
      even_odd_segments (x1 :: x2 :: rest) y m =
        (if m ≤ x2 - x1 then [((x1, y), (x2, y))] else []) ++ even_odd_segments rest y m)
    ∧ even_odd_segments [70, 90, 110, 130] 100 (1 / 1000) =
        [((70, 100), (90, 100)), ((110, 100), (130, 100))] := by
  constructor
  · intro x1 x2 rest y m
    rfl
  · norm_num [even_odd_segments]

-- C6: scanline crossings are sorted; worked example on the axis-aligned square.

/-- C6: `scanline_x_intersections` returns ascending-sorted crossing
x-coordinates (half-open crossing test, horizontal edges contribute nothing),
and on the axis-aligned square `[(70,70), (140,70), (140,140), (70,140)]` at
`y = 105` it returns exactly `[70, 140]`. -/
theorem scanline_x_intersections_spec :
    (∀ (poly : List (ℚ × ℚ)) (y eps : ℚ),
      List.Sorted (· ≤ ·) (scanline_x_intersections poly y eps))
    ∧ scanline_x_intersections [(70, 70), (140, 70), (140, 140), (70, 140)] 105
        (1 / 1000000000) = [70, 140] := by
  constructor
  · intro poly y eps
    exact List.sorted_insertionSort _ _
  · norm_num [scanline_x_intersections, closePoly, crossings, List.insertionSort,
      List.orderedInsert]

-- C10: ensure_closed closes, preserves closed inputs, is idempotent, and
-- rejects exactly the short inputs.

lemma closedWithin_cons (a : ℚ × ℚ) (rest : List (ℚ × ℚ)) (eps : ℚ) :
    closedWithin (a :: rest) eps ↔
      withinEps a ((a :: rest).getLast (List.cons_ne_nil a rest)) eps := by
  unfold closedWithin
  rw [List.getLast?_eq_getLast (a :: rest) (List.cons_ne_nil a rest)]
  simp

lemma withinEps_self (a : ℚ × ℚ) (eps : ℚ) (heps : 0 ≤ eps) : withinEps a a eps := by
  refine ⟨heps, ?_⟩
  have : sqDist a a = 0 := by simp [sqDist]
  rw [this]
  positivity

lemma ensure_closed_cons (a : ℚ × ℚ) (rest : List (ℚ × ℚ)) (eps : ℚ) :
    ensure_closed (a :: rest) eps =
      if (a :: rest).length < 3 then .error "Need >= 3 vertices"
      else if withinEps a ((a :: rest).getLast (List.cons_ne_nil a rest)) eps then
        .ok (a :: rest)
      else .ok ((a :: rest) ++ [a]) := rfl

/-- C10: for nonnegative `eps`, `ensure_closed` on a list of at least 3
vertices succeeds with a polygon whose last vertex is within `eps` of its
first, returns an already-closed polygon unchanged, and is idempotent; lists of
fewer than 3 vertices raise `ValueError("Need >= 3 vertices")`. -/
theorem ensure_closed_spec (p : List (ℚ × ℚ)) (eps : ℚ) (heps : 0 ≤ eps) :
    (3 ≤ p.length → ∃ q, ensure_closed p eps = .ok q ∧ closedWithin q eps ∧
      (closedWithin p eps → q = p) ∧ ensure_closed q eps = .ok q)
    ∧ (p.length < 3 → ensure_closed p eps = .error "Need >= 3 vertices") := by
  constructor
  · intro h3
    match p, h3 with
    | a :: rest, h3 =>
      have hnl : ¬ (a :: rest).length < 3 := by omega
      by_cases hcl : withinEps a ((a :: rest).getLast (List.cons_ne_nil a rest)) eps
      · refine ⟨a :: rest, ?_, (closedWithin_cons a rest eps).2 hcl, fun _ => rfl, ?_⟩
        · rw [ensure_closed_cons, if_neg hnl, if_pos hcl]
        · rw [ensure_closed_cons, if_neg hnl, if_pos hcl]
      · have hq : ((a :: rest) ++ [a] : List (ℚ × ℚ)) = a :: (rest ++ [a]) := by simp
        have hl1 : (a :: (rest ++ [a])).getLast? = some a := by
          rw [← hq]
          exact List.getLast?_concat _
        have hlast : (a :: (rest ++ [a])).getLast (List.cons_ne_nil a (rest ++ [a])) = a := by
          have h2 := List.getLast?_eq_getLast (a :: (rest ++ [a]))
            (List.cons_ne_nil a (rest ++ [a]))
          rw [h2] at hl1
          exact (Option.some_inj.mp hl1)
        have hnl2 : ¬ (a :: (rest ++ [a])).length < 3 := by
          simp only [List.length_cons, List.length_append, List.length_singleton]
          simp only [List.length_cons] at h3
          omega
        refine ⟨a :: (rest ++ [a]), ?_, ?_, ?_, ?_⟩
        · rw [ensure_closed_cons, if_neg hnl, if_neg hcl, hq]
        · refine (closedWithin_cons a (rest ++ [a]) eps).2 ?_
          rw [hlast]
          exact withinEps_self a eps heps
        · intro hc
          exact absurd ((closedWithin_cons a rest eps).1 hc) hcl
        · rw [ensure_closed_cons, if_neg hnl2, if_pos]
          rw [hlast]
          exact withinEps_self a eps heps
  · intro hlt
    match p with
    | [] => rfl
    | a :: rest => rw [ensure_closed_cons, if_pos hlt]

/-- Witness for `ensure_closed_spec` at the open triangle
`[(0,0), (1,0), (0,1)]` with `eps = 1e-9`. -/
theorem ensure_closed_spec_witness :
    (0 : ℚ) ≤ 1 / 1000000000 ∧
      ((3 ≤ ([((0 : ℚ), (0 : ℚ)), (1, 0), (0, 1)]).length →
        ∃ q, ensure_closed [((0 : ℚ), (0 : ℚ)), (1, 0), (0, 1)] (1 / 1000000000) = .ok q ∧
          closedWithin q (1 / 1000000000) ∧
          (closedWithin [((0 : ℚ), (0 : ℚ)), (1, 0), (0, 1)] (1 / 1000000000) →
            q = [((0 : ℚ), (0 : ℚ)), (1, 0), (0, 1)]) ∧
          ensure_closed q (1 / 1000000000) = .ok q)
      ∧ (([((0 : ℚ), (0 : ℚ)), (1, 0), (0, 1)]).length < 3 →
          ensure_closed [((0 : ℚ), (0 : ℚ)), (1, 0), (0, 1)] (1 / 1000000000) =
            .error "Need >= 3 vertices")) :=
  ⟨by norm_num, ensure_closed_spec [((0 : ℚ), (0 : ℚ)), (1, 0), (0, 1)] (1 / 1000000000)
    (by norm_num)⟩

-- C2: the layer loop accumulates the layer height by repeated binary64
-- addition; at total_height = 0.3, layer_height = 0.1 it stops after two
-- layers because 0.1 + 0.1 + 0.1 rounds above 0.3, silently skipping the
-- final layer at z = 0.3 that the spec requires (floor(0.3/0.1) = 3 layers).

/-- C2: evaluation of the z-loop of `generate_lamp_shade_layers` under binary64
arithmetic at `total_height = 0.3`, `layer_height = 0.1`: for every sufficient
fuel the loop emits exactly the two layers `z = 0.1, 0.2` and stops, although
`floor(0.3 / 0.1) = 3`; the final layer at `z = 0.3` is silently skipped. -/
theorem generate_lamp_shade_layers_float_drift :
    ∀ n : ℕ,
      layerZsF (f64ofPosRat 3 10) (f64ofPosRat 1 10) (f64ofPosRat 1 10) (n + 3) =
        [f64ofPosRat 1 10, f64ofPosRat 2 10]
      ∧ (layerZsF (f64ofPosRat 3 10) (f64ofPosRat 1 10) (f64ofPosRat 1 10) (n + 3)).length = 2
      ∧ ⌊(3 : ℚ) / 10 / (1 / 10)⌋ = 3 := by
  intro n
  have c1 : fle (f64ofPosRat 1 10) (f64ofPosRat 3 10) = true := by decide
  have e1 : fadd (f64ofPosRat 1 10) (f64ofPosRat 1 10) = f64ofPosRat 2 10 := by decide
  have c2 : fle (f64ofPosRat 2 10) (f64ofPosRat 3 10) = true := by decide
  have c3 : fle (fadd (f64ofPosRat 2 10) (f64ofPosRat 1 10)) (f64ofPosRat 3 10) = false := by
    decide
  refine ⟨?_, ?_, ?_⟩
  · simp [layerZsF, c1, e1, c2, c3]
  · simp [layerZsF, c1, e1, c2, c3]
  · norm_num

-- C8: linear profile endpoint and midpoint values.

lemma clampDiv (z th : ℝ) (hth : 0 < th) :
    max 0 (min 1 (max 0 (min th z) / th)) = max 0 (min 1 (z / th)) := by
  rcases le_total z 0 with hz | hz
  · have h1 : min th z = z := min_eq_right (le_trans hz (le_of_lt hth))
    have h2 : max 0 z = 0 := max_eq_left hz
    have h3 : z / th ≤ 0 := div_nonpos_of_nonpos_of_nonneg hz (le_of_lt hth)
    rw [h1, h2]
    rw [min_eq_right (le_trans h3 zero_le_one), max_eq_left h3]
    norm_num
  · rcases le_total z th with hzth | hzth
    · rw [min_eq_right hzth, max_eq_right hz]
    · have h1 : min th z = th := min_eq_left hzth
      have h2 : max 0 th = th := max_eq_right (le_of_lt hth)
      have h3 : (1 : ℝ) ≤ z / th := (one_le_div hth).2 hzth
      rw [h1, h2, div_self (ne_of_gt hth), min_eq_left h3]
      norm_num

/-- C8: for the linear profile with positive total height,
`lamp_shade_radius_at_height` returns the base radius at `z = 0`, the top
radius at `z = total_height`, and their average at half height (exactly, hence
within the 1e-6 tolerance). -/
theorem lamp_shade_radius_at_height_linear_values (br tr th : ℝ) (hth : 0 < th) :
    lamp_shade_radius_at_height 0 br tr th "linear" = br
    ∧ lamp_shade_radius_at_height th br tr th "linear" = tr
    ∧ lamp_shade_radius_at_height (th / 2) br tr th "linear" = (br + tr) / 2 := by
  have hne : th ≠ 0 := ne_of_gt hth
  unfold lamp_shade_radius_at_height
  refine ⟨?_, ?_, ?_⟩
  · norm_num
  · rw [div_self hne]
    norm_num
  · have h2 : th / 2 / th = 1 / 2 := by
      rw [div_div, div_eq_div_iff (by positivity) (by norm_num : (2 : ℝ) ≠ 0)]
      ring
    rw [h2]
    norm_num
    ring

/-- Witness for `lamp_shade_radius_at_height_linear_values` at the default
parameters `base = 30`, `top = 25`, `height = 50`. -/
theorem lamp_shade_radius_at_height_linear_values_witness :
    (0 : ℝ) < 50 ∧
      (lamp_shade_radius_at_height 0 30 25 50 "linear" = 30
      ∧ lamp_shade_radius_at_height 50 30 25 50 "linear" = 25
      ∧ lamp_shade_radius_at_height (50 / 2) 30 25 50 "linear" = (30 + 25) / 2) :=
  ⟨by norm_num, lamp_shade_radius_at_height_linear_values 30 25 50 (by norm_num)⟩

-- C9: totality over the domain: unknown profiles fall back to linear, and z
-- outside [0, total_height] is clamped.

/-- C9: `lamp_shade_radius_at_height` is total: any profile string outside
`{linear, concave, convex, sinusoidal}` gives the same result as `"linear"`,
and (for positive total height) any `z`, also negative or above the total
height, gives the same radius as its clamp to `[0, total_height]`. -/
theorem lamp_shade_radius_at_height_total (z br tr th : ℝ) (pt : String) (hth : 0 < th)
    (hpt : pt ∉ ["linear", "concave", "convex", "sinusoidal"]) :
    lamp_shade_radius_at_height z br tr th pt = lamp_shade_radius_at_height z br tr th "linear"
    ∧ lamp_shade_radius_at_height z br tr th pt =
        lamp_shade_radius_at_height (max 0 (min th z)) br tr th pt := by
  simp only [List.mem_cons, List.mem_singleton, not_or] at hpt
  obtain ⟨h1, h2, h3, h4, -⟩ := hpt
  constructor
  · unfold lamp_shade_radius_at_height
    rw [if_neg h1, if_neg h2, if_neg h3, if_neg h4, if_pos rfl]
  · unfold lamp_shade_radius_at_height
    rw [clampDiv z th hth]

/-- Witness for `lamp_shade_radius_at_height_total` at `z = 5` and the unknown
profile string `"cubic"`. -/
theorem lamp_shade_radius_at_height_total_witness :
    ((0 : ℝ) < 50 ∧ ("cubic" : String) ∉ ["linear", "concave", "convex", "sinusoidal"]) ∧
      (lamp_shade_radius_at_height 5 30 25 50 "cubic" =
        lamp_shade_radius_at_height 5 30 25 50 "linear"
      ∧ lamp_shade_radius_at_height 5 30 25 50 "cubic" =
        lamp_shade_radius_at_height (max 0 (min 50 5)) 30 25 50 "cubic") :=
  ⟨⟨by norm_num, by decide⟩,
    lamp_shade_radius_at_height_total 5 30 25 50 "cubic" (by norm_num) (by decide)⟩

-- C5: capsule-model extrusion arithmetic.

/-- C5: `extruded_area` is the capsule model `w*h + pi*(h/2)^2`;
`delta_E_for_move` is `flow * area * L / (pi*(d/2)^2)`, is linear in the flow
multiplier (a flow multiplier of 1.1 scales the result by exactly 1.1), and at
`(L, w, h, d) = (10, 0.4, 0.2, 1.75)` lies strictly between 0.3 and 0.6 mm. -/
theorem extrusion_capsule_spec (w h d L m : ℝ) (hw : 0 < w) (hh : 0 < h) (hd : 0 < d)
    (hL : 0 ≤ L) :
    extruded_area w h = w * h + Real.pi * (h / 2) ^ 2
    ∧ delta_E_for_move L w h d m = m * extruded_area w h * L / (Real.pi * (d / 2) ^ 2)
    ∧ delta_E_for_move L w h d (1.1 * m) = 1.1 * delta_E_for_move L w h d m
    ∧ 0.3 < delta_E_for_move 10 0.4 0.2 1.75 1
    ∧ delta_E_for_move 10 0.4 0.2 1.75 1 < 0.6 := by
  have hpos : (0 : ℝ) < Real.pi * (1.75 / 2) ^ 2 := by positivity
  refine ⟨rfl, ?_, ?_, ?_, ?_⟩
  · unfold delta_E_for_move
    ring
  · unfold delta_E_for_move
    ring
  · unfold delta_E_for_move extruded_area
    rw [lt_div_iff₀ hpos]
    nlinarith [Real.pi_gt_three, Real.pi_lt_d2]
  · unfold delta_E_for_move extruded_area
    rw [div_lt_iff₀ hpos]
    nlinarith [Real.pi_gt_three, Real.pi_lt_d2]

/-- Witness for `extrusion_capsule_spec` at `(w, h, d, L, m) =
(0.4, 0.2, 1.75, 10, 1)`. -/
theorem extrusion_capsule_spec_witness :
    ((0 : ℝ) < 0.4 ∧ (0 : ℝ) < 0.2 ∧ (0 : ℝ) < 1.75 ∧ (0 : ℝ) ≤ 10) ∧
      (extruded_area 0.4 0.2 = 0.4 * 0.2 + Real.pi * (0.2 / 2) ^ 2
      ∧ delta_E_for_move 10 0.4 0.2 1.75 1 =
          1 * extruded_area 0.4 0.2 * 10 / (Real.pi * (1.75 / 2) ^ 2)
      ∧ delta_E_for_move 10 0.4 0.2 1.75 (1.1 * 1) = 1.1 * delta_E_for_move 10 0.4 0.2 1.75 1
      ∧ 0.3 < delta_E_for_move 10 0.4 0.2 1.75 1
      ∧ delta_E_for_move 10 0.4 0.2 1.75 1 < 0.6) :=
  ⟨⟨by norm_num, by norm_num, by norm_num, by norm_num⟩,
    extrusion_capsule_spec 0.4 0.2 1.75 10 1 (by norm_num) (by norm_num) (by norm_num)
      (by norm_num)⟩

-- C4: printability validation.

lemma checkPairs_ok_iff (f : ℝ → ℝ) (lh md : ℝ) :
    ∀ (l : List ℝ) (zp : ℝ),
      checkPairs f lh md (f zp) l = .ok "Valid" ↔
        List.Chain' (fun u v => overhangAngleDeg (f v - f u) lh ≤ md) (zp :: l) := by
  intro l
  induction l with
  | nil =>
    intro zp
    simp [checkPairs]
  | cons z rest ih =>
    intro zp
    rw [List.chain'_cons]
    by_cases hlt : md < overhangAngleDeg (f z - f zp) lh
    · simp only [checkPairs]
      rw [if_pos hlt]
      simp [not_le.2 hlt]
    · simp only [checkPairs]
      rw [if_neg hlt]
      rw [ih z]
      simp [not_lt.1 hlt]

lemma checkPairs_ok_msg (f : ℝ → ℝ) (lh md : ℝ) :
    ∀ (l : List ℝ) (r : ℝ) (s : String), checkPairs f lh md r l = .ok s → s = "Valid" := by
  intro l
  induction l with
  | nil =>
    intro r s hok
    simp only [checkPairs] at hok
    exact (Except.ok.injEq _ _).mp hok |>.symm
  | cons z rest ih =>
    intro r s hok
    simp only [checkPairs] at hok
    split_ifs at hok
    exact ih (f z) s hok

lemma range'_mul_chain (lh : ℝ) : ∀ (n i : ℕ),
    List.Chain' (fun u v => v = u + lh)
      (List.map (fun k : ℕ => (k : ℝ) * lh) (List.range' i n)) := by
  intro n
  induction n with
  | zero => intro i; simp
  | succ n ih =>
    intro i
    rw [List.range'_succ, List.map_cons, List.chain'_cons']
    refine ⟨?_, ih (i + 1)⟩
    intro b hb
    cases n with
    | zero => simp at hb
    | succ n =>
      rw [List.range'_succ] at hb
      simp only [List.map_cons, List.head?_cons, Option.mem_some_iff] at hb
      rw [← hb]
      push_cast
      ring

lemma sampleZs_chain (th lh : ℝ) :
    List.Chain' (fun u v => v = u + lh) (sampleZs th lh) := by
  unfold sampleZs
  exact range'_mul_chain lh _ 1

/-- C4: `validate_printability` succeeds with `"Valid"` exactly when every
consecutive pair of samples (at `layer_height, 2*layer_height, ...` up to
`total_height`) has overhang angle `atan(|dr|/dz)` in degrees at most the
maximum; in particular every profile of constant slope `s` with
`atan(|s|) * 180/pi` at most the maximum succeeds. -/
theorem validate_printability_spec (a s th lh md : ℝ) (hlh : 0 < lh)
    (hang : Real.arctan |s| * (180 / Real.pi) ≤ md) :
    (∀ (f : ℝ → ℝ) (th2 lh2 md2 : ℝ),
      validate_printability f th2 lh2 md2 = .ok "Valid" ↔
        List.Chain' (fun u v => overhangAngleDeg (f v - f u) lh2 ≤ md2) (sampleZs th2 lh2))
    ∧ validate_printability (fun z => a + s * z) th lh md = .ok "Valid" := by
  have hiff : ∀ (f : ℝ → ℝ) (th2 lh2 md2 : ℝ),
      validate_printability f th2 lh2 md2 = .ok "Valid" ↔
        List.Chain' (fun u v => overhangAngleDeg (f v - f u) lh2 ≤ md2) (sampleZs th2 lh2) := by
    intro f th2 lh2 md2
    unfold validate_printability
    cases hzs : sampleZs th2 lh2 with
    | nil => simp
    | cons z0 rest => exact checkPairs_ok_iff f lh2 md2 rest z0
  refine ⟨hiff, ?_⟩
  rw [hiff]
  have hstep : ∀ u v : ℝ, v = u + lh →
      overhangAngleDeg ((a + s * v) - (a + s * u)) lh = Real.arctan |s| * (180 / Real.pi) := by
    intro u v huv
    have hd2 : (a + s * v) - (a + s * u) = s * lh := by
      rw [huv]; ring
    rw [hd2]
    unfold overhangAngleDeg
    rw [abs_mul, abs_of_pos hlh, mul_div_assoc, div_self (ne_of_gt hlh), mul_one]
  refine List.Chain'.imp ?_ (sampleZs_chain th lh)
  intro u v huv
  show overhangAngleDeg ((a + s * v) - (a + s * u)) lh ≤ md
  rw [hstep u v huv]
  exact hang

/-- Witness for `validate_printability_spec` at the worked example
`r(z) = 20 + 0.8 z` over height 50, layer height 0.2, maximum 45 degrees:
`atan(0.8) ~ 38.7 degrees`, so the profile passes. -/
theorem validate_printability_spec_witness :
    ((0 : ℝ) < 0.2 ∧ Real.arctan |(0.8 : ℝ)| * (180 / Real.pi) ≤ 45) ∧
      validate_printability (fun z => 20 + 0.8 * z) 50 0.2 45 = .ok "Valid" := by
  have hlh : (0 : ℝ) < 0.2 := by norm_num
  have hle : Real.arctan |(0.8 : ℝ)| ≤ Real.pi / 4 := by
    rw [← Real.arctan_one]
    apply Real.arctan_strictMono.monotone
    rw [abs_of_nonneg (by norm_num : (0 : ℝ) ≤ 0.8)]
    norm_num
  have hang : Real.arctan |(0.8 : ℝ)| * (180 / Real.pi) ≤ 45 := by
    have hpi : (0 : ℝ) < Real.pi := Real.pi_pos
    calc Real.arctan |(0.8 : ℝ)| * (180 / Real.pi)
        ≤ (Real.pi / 4) * (180 / Real.pi) := by
          apply mul_le_mul_of_nonneg_right hle
          positivity
      _ = 45 := by
          field_simp
          ring
  exact ⟨⟨hlh, hang⟩, (validate_printability_spec 20 0.8 50 0.2 45 hlh hang).2⟩

-- C3: parameter validation.

lemma validate_printability_ok_msg (f : ℝ → ℝ) (th lh md : ℝ) (s : String)
    (h : validate_printability f th lh md = .ok s) : s = "Valid" := by
  unfold validate_printability at h
  revert h
  cases sampleZs th lh with
  | nil =>
    intro h
    exact ((Except.ok.injEq _ _).mp h).symm
  | cons z rest => exact checkPairs_ok_msg f lh md rest (f z) s

/-- C3: `LampShadeParams.validate` returns normally exactly when every
configuration constraint holds (positive radii, positive height, layer height
in `(0, 0.3]`, at least 12 points, shade within the bed, height within the
machine Z limit, minimum radius at least 10 mm) and the profile passes the
printability check; in every other case it raises a `ValueError` before any
geometry is generated. -/
theorem validate_ok_iff (p : LampShadeParams) :
    p.validate = .ok () ↔
      (0 < p.base_radius ∧ 0 < p.top_radius
      ∧ 0 < p.total_height
      ∧ 0 < p.layer_height ∧ p.layer_height ≤ 0.3
      ∧ 12 ≤ p.num_points
      ∧ 0 ≤ PrinterSpecs.BED_CENTER.1 - max p.base_radius p.top_radius
      ∧ PrinterSpecs.BED_CENTER.1 + max p.base_radius p.top_radius ≤ PrinterSpecs.BED_SIZE.1
      ∧ 0 ≤ PrinterSpecs.BED_CENTER.2 - max p.base_radius p.top_radius
      ∧ PrinterSpecs.BED_CENTER.2 + max p.base_radius p.top_radius ≤ PrinterSpecs.BED_SIZE.2
      ∧ p.total_height ≤ PrinterSpecs.MAX_Z
      ∧ 10 ≤ min p.base_radius p.top_radius
      ∧ validate_printability
          (fun z => lamp_shade_radius_at_height z p.base_radius p.top_radius p.total_height
            p.profile_type)
          p.total_height p.layer_height PrinterSpecs.MAX_OVERHANG_ANGLE = .ok "Valid") := by
  unfold LampShadeParams.validate
  split_ifs with h1 h2 h3 h4 h5 h6 h7
  · constructor
    · intro h; exact absurd h (by simp)
    · rintro ⟨hb, ht, -⟩
      rcases h1 with h | h <;> linarith
  · constructor
    · intro h; exact absurd h (by simp)
    · rintro ⟨-, -, hh, -⟩
      linarith
  · constructor
    · intro h; exact absurd h (by simp)
    · rintro ⟨-, -, -, hl1, hl2, -⟩
      rcases h3 with h | h <;> linarith
  · constructor
    · intro h; exact absurd h (by simp)
    · rintro ⟨-, -, -, -, -, hnp, -⟩
      omega
  · constructor
    · intro h; exact absurd h (by simp)
    · rintro ⟨-, -, -, -, -, -, hb1, hb2, hb3, hb4, -⟩
      rcases h5 with h | h | h | h <;> linarith
  · constructor
    · intro h; exact absurd h (by simp)
    · rintro ⟨-, -, -, -, -, -, -, -, -, -, hz, -⟩
      linarith
  · constructor
    · intro h; exact absurd h (by simp)
    · rintro ⟨-, -, -, -, -, -, -, -, -, -, -, hm, -⟩
      linarith
  · push_neg at h1 h3 h5
    cases hpr : validate_printability
        (fun z => lamp_shade_radius_at_height z p.base_radius p.top_radius p.total_height
          p.profile_type)
        p.total_height p.layer_height PrinterSpecs.MAX_OVERHANG_ANGLE with
    | error za =>
      constructor
      · intro h
        exact absurd h (by simp)
      · rintro ⟨-, -, -, -, -, -, -, -, -, -, -, -, hok⟩
        exact absurd hok (by simp)
    | ok s =>
      have hs : s = "Valid" := validate_printability_ok_msg _ _ _ _ s hpr
      subst hs
      constructor
      · intro _
        exact ⟨h1.1, h1.2, not_le.1 h2, h3.1, h3.2, not_lt.1 h4, h5.1, h5.2.1, h5.2.2.1,
          h5.2.2.2, not_lt.1 h6, not_lt.1 h7, rfl⟩
      · intro _
        rfl

-- C1: spiral toolpath shape, z formula and monotonicity.

lemma emitLayer_length (zb zi : ℚ) : ∀ (ps : List (ℚ × ℚ)) (i : ℕ),
    (emitLayer zb zi i ps).length = ps.length := by
  intro ps
  induction ps with
  | nil => intro i; rfl
  | cons p rest ih =>
    intro i
    simp [emitLayer, ih (i + 1)]

lemma emitLayer_map_z (zb zi : ℚ) : ∀ (ps : List (ℚ × ℚ)) (i : ℕ),
    (emitLayer zb zi i ps).map (fun q => q.2.2) =
      List.map (fun k : ℕ => zb + (k : ℚ) * zi) (List.range' i ps.length) := by
  intro ps
  induction ps with
  | nil => intro i; rfl
  | cons p rest ih =>
    intro i
    simp only [emitLayer, List.map_cons, List.length_cons, List.range'_succ]
    rw [ih (i + 1)]

lemma stripClosing_cons (a : ℚ × ℚ) (rest : List (ℚ × ℚ)) :
    stripClosing (a :: rest) =
      if (a :: rest).getLast? = some a then (a :: rest).dropLast else a :: rest := rfl

lemma stripClosing_length (ps : List (ℚ × ℚ)) (np : ℕ) (hlen : ps.length = np + 1)
    (hhl : ps.head? = ps.getLast?) : (stripClosing ps).length = np := by
  match ps, hlen with
  | a :: rest, hlen =>
    have hh : (a :: rest).getLast? = some a := by
      rw [← hhl]; rfl
    rw [stripClosing_cons, if_pos hh, List.length_dropLast]
    simp only [List.length_cons] at hlen ⊢
    omega

lemma block_chain (zb zi : ℚ) (hzi : 0 ≤ zi) : ∀ (n i : ℕ),
    List.Chain' (· ≤ ·) (List.map (fun k : ℕ => zb + (k : ℚ) * zi) (List.range' i n)) := by
  intro n
  induction n with
  | zero => intro i; simp
  | succ n ih =>
    intro i
    rw [List.range'_succ, List.map_cons, List.chain'_cons']
    refine ⟨?_, ih (i + 1)⟩
    intro b hb
    cases n with
    | zero => simp at hb
    | succ n =>
      rw [List.range'_succ] at hb
      simp only [List.map_cons, List.head?_cons, Option.mem_some_iff] at hb
      rw [← hb]
      have : ((i : ℚ) + 1) * zi = (i : ℚ) * zi + zi := by ring
      push_cast
      nlinarith [hzi]

lemma block_head (zb zi : ℚ) (n i : ℕ) (hn : 0 < n) :
    (List.map (fun k : ℕ => zb + (k : ℚ) * zi) (List.range' i n)).head? =
      some (zb + (i : ℚ) * zi) := by
  cases n with
  | zero => omega
  | succ n => rw [List.range'_succ, List.map_cons, List.head?_cons]

lemma block_last (zb zi : ℚ) : ∀ (n i : ℕ), 0 < n →
    (List.map (fun k : ℕ => zb + (k : ℚ) * zi) (List.range' i n)).getLast? =
      some (zb + ((i + n - 1 : ℕ) : ℚ) * zi) := by
  intro n
  induction n with
  | zero => intro i h; omega
  | succ n ih =>
    intro i _
    cases n with
    | zero =>
      rw [List.range'_succ]
      simp
    | succ n =>
      have htail := ih (i + 1) (by omega)
      rw [List.range'_succ, List.map_cons] at htail
      rw [List.range'_succ, List.map_cons, List.range'_succ, List.map_cons,
        List.getLast?_cons_cons, htail]
      have harg : i + 1 + (n + 1) - 1 = i + (n + 1 + 1) - 1 := by omega
      rw [harg]

lemma boundary_le (lh : ℚ) (np : ℕ) (hnp : 0 < np) (hlh : 0 < lh) :
    ((np - 1 : ℕ) : ℚ) * (lh / (np : ℚ)) ≤ lh := by
  have hnpq : (0 : ℚ) < (np : ℚ) := by exact_mod_cast hnp
  have hcast : ((np - 1 : ℕ) : ℚ) = (np : ℚ) - 1 := by
    push_cast [Nat.cast_sub hnp]
    ring
  rw [hcast, ← mul_div_assoc, div_le_iff₀ hnpq]
  nlinarith [hlh]

lemma blocks_chain (lh : ℚ) (np : ℕ) (hnp : 0 < np) (hlh : 0 < lh) :
    ∀ (layers : List (ℚ × List (ℚ × ℚ))),
      List.Chain' (fun a b => b.1 = a.1 + lh) layers →
      List.Chain' (· ≤ ·)
        (layers.flatMap (fun l =>
          List.map (fun k : ℕ => l.1 + (k : ℚ) * (lh / (np : ℚ))) (List.range' 0 np))) := by
  have hzi : (0 : ℚ) ≤ lh / (np : ℚ) := by positivity
  intro layers
  induction layers with
  | nil => intro _; simp
  | cons l rest ih =>
    intro hch
    rw [List.flatMap_cons, List.chain'_append]
    refine ⟨block_chain l.1 (lh / (np : ℚ)) hzi np 0, ih (List.Chain'.tail hch), ?_⟩
    intro x hx y hy
    cases rest with
    | nil => simp at hy
    | cons l2 rest2 =>
      rw [block_last l.1 (lh / (np : ℚ)) np 0 hnp] at hx
      simp only [Option.mem_some_iff] at hx
      rw [List.flatMap_cons, List.head?_append,
        block_head l2.1 (lh / (np : ℚ)) np 0 hnp] at hy
      simp only [Option.or_some, Option.mem_some_iff] at hy
      have hrel : l2.1 = l.1 + lh := (List.chain'_cons.1 hch).1
      subst hx
      subst hy
      push_cast
      have hb := boundary_le lh np hnp hlh
      simp only [Nat.zero_add] at hb ⊢
      nlinarith [hb]

lemma toolpath_length (lh : ℚ) (np : ℕ) :
    ∀ (layers : List (ℚ × List (ℚ × ℚ))),
      (∀ l ∈ layers, (l.2).length = np + 1 ∧ (l.2).head? = (l.2).getLast?) →
      (generate_spiral_lamp_shade_toolpath layers lh np).length = layers.length * np := by
  intro layers
  induction layers with
  | nil => intro _; simp [generate_spiral_lamp_shade_toolpath]
  | cons l rest ih =>
    intro hper
    have hl := hper l (List.mem_cons_self l rest)
    simp only [generate_spiral_lamp_shade_toolpath, List.flatMap_cons, List.length_append,
      List.length_cons]
    rw [emitLayer_length, stripClosing_length l.2 np hl.1 hl.2]
    have hrest := ih (fun l2 hl2 => hper l2 (List.mem_cons_of_mem l hl2))
    simp only [generate_spiral_lamp_shade_toolpath] at hrest
    rw [hrest]
    ring

lemma toolpath_map_z (lh : ℚ) (np : ℕ) :
    ∀ (layers : List (ℚ × List (ℚ × ℚ))),
      (∀ l ∈ layers, (l.2).length = np + 1 ∧ (l.2).head? = (l.2).getLast?) →
      (generate_spiral_lamp_shade_toolpath layers lh np).map (fun q => q.2.2) =
        layers.flatMap (fun l =>
          List.map (fun k : ℕ => l.1 + (k : ℚ) * (lh / (np : ℚ))) (List.range' 0 np)) := by
  intro layers
  induction layers with
  | nil => intro _; rfl
  | cons l rest ih =>
    intro hper
    have hl := hper l (List.mem_cons_self l rest)
    simp only [generate_spiral_lamp_shade_toolpath, List.flatMap_cons, List.map_append]
    rw [emitLayer_map_z, stripClosing_length l.2 np hl.1 hl.2]
    have hrest := ih (fun l2 hl2 => hper l2 (List.mem_cons_of_mem l hl2))
    simp only [generate_spiral_lamp_shade_toolpath] at hrest
    rw [hrest]

/-- C1 (amended): for layers each carrying `num_points + 1` perimeter points
with a duplicate closing point, positive layer height and point count, and
consecutive layer heights increasing by exactly the layer height (as the layer
generator produces them bottom-to-top), the spiral toolpath has exactly
`numLayers * numPoints` points, emits point `i` of a layer at
`z_base + i * (layer_height / num_points)`, and its z-coordinates are
non-decreasing across the whole concatenated sequence. -/
theorem generate_spiral_toolpath_spec (layers : List (ℚ × List (ℚ × ℚ))) (lh : ℚ) (np : ℕ)
    (hnp : 0 < np) (hlh : 0 < lh)
    (hper : ∀ l ∈ layers, (l.2).length = np + 1 ∧ (l.2).head? = (l.2).getLast?)
    (hstep : List.Chain' (fun a b => b.1 = a.1 + lh) layers) :
    (generate_spiral_lamp_shade_toolpath layers lh np).length = layers.length * np
    ∧ (generate_spiral_lamp_shade_toolpath layers lh np).map (fun q => q.2.2) =
        layers.flatMap (fun l =>
          List.map (fun i : ℕ => l.1 + (i : ℚ) * (lh / (np : ℚ))) (List.range np))
    ∧ List.Chain' (· ≤ ·)
        ((generate_spiral_lamp_shade_toolpath layers lh np).map (fun q => q.2.2)) := by
  refine ⟨toolpath_length lh np layers hper, ?_, ?_⟩
  · rw [toolpath_map_z lh np layers hper, List.range_eq_range']
  · rw [toolpath_map_z lh np layers hper]
    exact blocks_chain lh np hnp hlh layers hstep

/-- C1 counterexample: for an arbitrary layer list the claim fails; with the
layer at `z = 1` listed before the layer at `z = 0` (both valid closed
triangles with 3 points plus the duplicate), the concatenated z-sequence of
the toolpath is not non-decreasing. -/
theorem generate_spiral_toolpath_z_not_monotone :
    ¬ List.Chain' (· ≤ ·)
        ((generate_spiral_lamp_shade_toolpath
            [(1, [(0, 0), (1, 0), (0, 1), (0, 0)]), (0, [(0, 0), (1, 0), (0, 1), (0, 0)])]
            1 3).map (fun q => q.2.2)) := by
  norm_num [generate_spiral_lamp_shade_toolpath, stripClosing, emitLayer, List.chain'_cons,
    List.chain'_singleton, Prod.ext_iff]

/-- Witness for `generate_spiral_toolpath_spec` on two stacked triangle layers
at `z = 1` and `z = 2` with `layer_height = 1` and `num_points = 3`. -/
theorem generate_spiral_toolpath_spec_witness :
    (0 < 3 ∧ (0 : ℚ) < 1
      ∧ ([((0 : ℚ), (0 : ℚ)), (1, 0), (0, 1), (0, 0)]).length = 3 + 1
      ∧ ([((0 : ℚ), (0 : ℚ)), (1, 0), (0, 1), (0, 0)]).head? =
          ([((0 : ℚ), (0 : ℚ)), (1, 0), (0, 1), (0, 0)]).getLast?
      ∧ List.Chain' (fun a b => b.1 = a.1 + 1)
          [((1 : ℚ), [((0 : ℚ), (0 : ℚ)), (1, 0), (0, 1), (0, 0)]),
            (2, [(0, 0), (1, 0), (0, 1), (0, 0)])]) ∧
      ((generate_spiral_lamp_shade_toolpath
          [((1 : ℚ), [((0 : ℚ), (0 : ℚ)), (1, 0), (0, 1), (0, 0)]),
            (2, [(0, 0), (1, 0), (0, 1), (0, 0)])] 1 3).length =
        ([((1 : ℚ), [((0 : ℚ), (0 : ℚ)), (1, 0), (0, 1), (0, 0)]),
            (2, [(0, 0), (1, 0), (0, 1), (0, 0)])]).length * 3
      ∧ (generate_spiral_lamp_shade_toolpath
          [((1 : ℚ), [((0 : ℚ), (0 : ℚ)), (1, 0), (0, 1), (0, 0)]),
            (2, [(0, 0), (1, 0), (0, 1), (0, 0)])] 1 3).map (fun q => q.2.2) =
        ([((1 : ℚ), [((0 : ℚ), (0 : ℚ)), (1, 0), (0, 1), (0, 0)]),
            (2, [(0, 0), (1, 0), (0, 1), (0, 0)])]).flatMap (fun l =>
          List.map (fun i : ℕ => l.1 + (i : ℚ) * ((1 : ℚ) / ((3 : ℕ) : ℚ))) (List.range 3))
      ∧ List.Chain' (· ≤ ·)
          ((generate_spiral_lamp_shade_toolpath
              [((1 : ℚ), [((0 : ℚ), (0 : ℚ)), (1, 0), (0, 1), (0, 0)]),
                (2, [(0, 0), (1, 0), (0, 1), (0, 0)])] 1 3).map (fun q => q.2.2))) := by
  have hper : ∀ l ∈ [((1 : ℚ), [((0 : ℚ), (0 : ℚ)), (1, 0), (0, 1), (0, 0)]),
      (2, [(0, 0), (1, 0), (0, 1), (0, 0)])],
      (l.2).length = 3 + 1 ∧ (l.2).head? = (l.2).getLast? := by
    intro l hl
    rcases List.mem_cons.mp hl with rfl | hl2
    · exact ⟨rfl, rfl⟩
    · rcases List.mem_cons.mp hl2 with rfl | h
      · exact ⟨rfl, rfl⟩
      · exact absurd h (List.not_mem_nil l)
  have hstep : List.Chain' (fun a b => b.1 = a.1 + 1)
      [((1 : ℚ), [((0 : ℚ), (0 : ℚ)), (1, 0), (0, 1), (0, 0)]),
        (2, [(0, 0), (1, 0), (0, 1), (0, 0)])] := by
    rw [List.chain'_cons]
    exact ⟨by norm_num, List.chain'_singleton _⟩
  exact ⟨⟨by norm_num, by norm_num, rfl, rfl, hstep⟩,
    generate_spiral_toolpath_spec _ 1 3 (by norm_num) (by norm_num) hper hstep⟩
